import Mathlib

/-!
Verification of the social-graph / content-visibility core of the
`fastapi-social` repository, via a shallow embedding of the repository and
endpoint layers (`app/repositories/connection.py`, `app/repositories/post.py`,
`app/api/v1/endpoints/connections.py`, `app/models/*.py`).

Database tables are embedded as Lean lists kept in insertion order; SQLAlchemy
queries become list filters over those lists, `.first()` becomes `List.find?`,
row mutation of the first matching row becomes a first-match list update,
`ORDER BY` becomes a stable insertion sort, and `OFFSET`/`LIMIT` become
`List.drop`/`List.take`.  `None`-able columns are `Option` values, and Python
exceptions (HTTP errors, integrity errors) are `Except` results.
-/

/-- Connection status column of the `connections` table
(`app/models/connection.py`): the string field takes exactly the values
pending, accepted, rejected, blocked. -/
inductive ConnStatus where
  | pending
  | accepted
  | rejected
  | blocked
deriving DecidableEq

/-- Privacy column of the `posts` table (`app/models/post.py`): public,
connections, private. -/
inductive PostPrivacy where
  | pub
  | connections
  | priv
deriving DecidableEq

/-- Row of the `connections` table.  Timestamps are abstract `Nat` clock
values; `updated_at` is omitted as no specified behaviour reads it. -/
structure Conn where
  id : Nat
  requester_id : Nat
  addressee_id : Nat
  status : ConnStatus
  created_at : Nat
  responded_at : Option Nat
deriving DecidableEq

/-- Row of the `users` table (`app/models/user.py`), restricted to the columns
the connection/post layers read.  `interests` is a JSON array column, hence an
optional list of strings (duplicates representable, as in the source). -/
structure User where
  id : Nat
  is_active : Bool
  university : Option String
  major : Option String
  interests : Option (List String)
deriving DecidableEq

/-- Row of the `posts` table (`app/models/post.py`). -/
structure Post where
  id : Nat
  user_id : Nat
  content : String
  privacy : PostPrivacy
  is_active : Bool
  likes_count : Nat
  comments_count : Nat
  created_at : Nat
deriving DecidableEq

/-- Row of the `post_likes` table. -/
structure PostLike where
  post_id : Nat
  user_id : Nat
deriving DecidableEq

/-- Row of the `post_comments` table. -/
structure PostComment where
  id : Nat
  post_id : Nat
  user_id : Nat
  content : String
  parent_comment_id : Option Nat
  is_active : Bool
  created_at : Nat
deriving DecidableEq

/-- Delete the first element satisfying `q` (SQLAlchemy `db.delete(row)` where
`row` was obtained with `.first()`). -/
def remove_first (q : α → Bool) : List α → List α
  | [] => []
  | x :: xs => if q x then xs else x :: remove_first q xs

/-- Mutate the first element satisfying `q` (attribute assignment on a row
obtained with `.first()`). -/
def update_first (q : α → Bool) (f : α → α) : List α → List α
  | [] => []
  | x :: xs => if q x then f x :: xs else x :: update_first q f xs

/-- ConnectionRepository.get_connection_by_id. -/
def get_connection_by_id (conns : List Conn) (connection_id : Nat) : Option Conn :=
  conns.find? (fun c => decide (c.id = connection_id))

/-- ConnectionRepository.get_connection_between_users: first record joining the
two users in either direction, any status. -/
def get_connection_between_users (conns : List Conn) (user1_id user2_id : Nat) : Option Conn :=
  conns.find? (fun c => decide
    ((c.requester_id = user1_id ∧ c.addressee_id = user2_id) ∨
     (c.requester_id = user2_id ∧ c.addressee_id = user1_id)))

/-- ConnectionRepository.update_connection_status.  Mirrors the permission
checks of the source: for accepted/rejected only the addressee may act, for
blocked either party; no check at all on the record's current status.  Returns
the updated table and the updated row, or `none` (the endpoint maps `none` to
HTTP 404). -/
def update_connection_status (conns : List Conn) (connection_id : Nat)
    (status : ConnStatus) (user_id : Nat) (now : Nat) : Option (List Conn × Conn) :=
  match get_connection_by_id conns connection_id with
  | none => none
  | some c =>
    if (status = ConnStatus.accepted ∨ status = ConnStatus.rejected) ∧ c.addressee_id ≠ user_id then
      none
    else if status = ConnStatus.blocked ∧ c.requester_id ≠ user_id ∧ c.addressee_id ≠ user_id then
      none
    else
      let c' : Conn :=
        { c with
          status := status
          responded_at :=
            if status = ConnStatus.accepted ∨ status = ConnStatus.rejected then some now
            else c.responded_at }
      some (update_first (fun x => decide (x.id = connection_id)) (fun _ => c') conns, c')

/-- ConnectionRepository.delete_connection: pending records may be deleted only
by the requester, any other status by either party. -/
def delete_connection (conns : List Conn) (connection_id user_id : Nat) : Bool × List Conn :=
  match get_connection_by_id conns connection_id with
  | none => (false, conns)
  | some c =>
    if c.status = ConnStatus.pending then
      if c.requester_id ≠ user_id then (false, conns)
      else (true, remove_first (fun x => decide (x.id = c.id)) conns)
    else
      if c.requester_id ≠ user_id ∧ c.addressee_id ≠ user_id then (false, conns)
      else (true, remove_first (fun x => decide (x.id = c.id)) conns)

/-- ConnectionRepository.remove_connection_between_users: deletes whatever
record `get_connection_between_users` finds, with no status or role check. -/
def remove_connection_between_users (conns : List Conn) (user1_id user2_id : Nat) : Bool × List Conn :=
  match get_connection_between_users conns user1_id user2_id with
  | none => (false, conns)
  | some c => (true, remove_first (fun x => decide (x.id = c.id)) conns)

/-- The other end of a connection as computed by the source's
`case(requester_id == uid, addressee_id, else_=requester_id)` pattern. -/
def otherEnd (uid : Nat) (c : Conn) : Nat :=
  if c.requester_id = uid then c.addressee_id else c.requester_id

/-- Accepted connections touching a user in either direction (the `user1_connections`
and `user2_connections` subqueries of `get_mutual_connections`, and the
connections query of `get_feed`). -/
def acceptedTouching (conns : List Conn) (uid : Nat) : List Conn :=
  conns.filter (fun c =>
    decide ((c.requester_id = uid ∨ c.addressee_id = uid) ∧ c.status = ConnStatus.accepted))

/-- Row stream of the mutual-connection query of
`ConnectionRepository.get_mutual_connections` before OFFSET/LIMIT: the two
subqueries appear in the same SELECT, giving a cross join; the `coalesce` of
the two `case` expressions always evaluates to the other end of user1's
connection, and the auto-correlated `IN` subquery compares it with the other
end of user2's connection of the current row. -/
def mutualRows (conns : List Conn) (user1_id user2_id : Nat) : List Nat :=
  (acceptedTouching conns user1_id).flatMap (fun c1 =>
    (acceptedTouching conns user2_id).filterMap (fun c2 =>
      if otherEnd user2_id c2 = otherEnd user1_id c1 then some (otherEnd user1_id c1) else none))

/-- ConnectionRepository.get_mutual_connections: slice the row stream with
offset/limit, then fetch the `User` rows whose id occurs in the slice (the
final `User.id.in_(user_ids)` query, which deduplicates and returns users in
table order). -/
def get_mutual_connections (conns : List Conn) (users : List User)
    (user1_id user2_id limit offset : Nat) : List User :=
  let sliced := ((mutualRows conns user1_id user2_id).drop offset).take limit
  if sliced.isEmpty then [] else users.filter (fun u => decide (u.id ∈ sliced))

def c8conns : List Conn :=
  [{ id := 1, requester_id := 1, addressee_id := 3, status := ConnStatus.accepted, created_at := 0, responded_at := none },
   { id := 2, requester_id := 1, addressee_id := 4, status := ConnStatus.accepted, created_at := 0, responded_at := none },
   { id := 3, requester_id := 2, addressee_id := 4, status := ConnStatus.accepted, created_at := 0, responded_at := none },
   { id := 4, requester_id := 2, addressee_id := 3, status := ConnStatus.accepted, created_at := 0, responded_at := none }]

def c8users : List User :=
  [{ id := 1, is_active := true, university := none, major := none, interests := none },
   { id := 2, is_active := true, university := none, major := none, interests := none },
   { id := 3, is_active := true, university := none, major := none, interests := none },
   { id := 4, is_active := true, university := none, major := none, interests := none }]

/-- Stable descending sort on `created_at` (`ORDER BY created_at DESC` read off
a table kept in insertion order; `List.insertionSort` is stable, matching the
deterministic embedding of the unspecified SQL tie order). -/
def sortPostsDesc (l : List Post) : List Post :=
  List.insertionSort (fun a b => b.created_at ≤ a.created_at) l

/-- Stable ascending sort on `created_at` (`ORDER BY created_at` on comments). -/
def sortCommentsAsc (l : List PostComment) : List PostComment :=
  List.insertionSort (fun a b : PostComment => a.created_at ≤ b.created_at) l

/-- PostRepository._is_connected: true for a viewer looking at themself, else
true iff an accepted connection joins the two users; a `None` viewer matches
nothing (SQL `NULL` comparison semantics). -/
def is_connected (conns : List Conn) (user1_id : Option Nat) (user2_id : Nat) : Bool :=
  if user1_id = some user2_id then true
  else decide (∃ c ∈ conns,
    ((some c.requester_id = user1_id ∧ c.addressee_id = user2_id) ∨
     (c.requester_id = user2_id ∧ some c.addressee_id = user1_id)) ∧
    c.status = ConnStatus.accepted)

/-- Row predicate of PostRepository.get_user_posts, factored per post (the
spec's `canView`): an active row passes when the viewer is the author, and
otherwise when it is public, or connections-level with viewer and author
connected. -/
def can_view (conns : List Conn) (viewer : Option Nat) (p : Post) : Bool :=
  if p.is_active = false then false
  else if viewer = some p.user_id then true
  else decide (p.privacy = PostPrivacy.pub) ||
    (decide (p.privacy = PostPrivacy.connections) && is_connected conns viewer p.user_id)

/-- PostRepository.get_user_posts (privacy-filtered listing of one author's
posts; the transient `is_liked` annotation is not modelled). -/
def get_user_posts (conns : List Conn) (posts : List Post) (user_id limit offset : Nat)
    (current_user_id : Option Nat) : List Post :=
  ((sortPostsDesc (posts.filter (fun p =>
      decide (p.user_id = user_id) && can_view conns current_user_id p))).drop offset).take limit

/-- PostRepository.get_feed: posts of self and accepted connections, active,
with privacy public or connections, newest first, paginated. -/
def get_feed (conns : List Conn) (posts : List Post) (user_id limit offset : Nat) : List Post :=
  let connected_user_ids := user_id :: (acceptedTouching conns user_id).map (otherEnd user_id)
  ((sortPostsDesc (posts.filter (fun p =>
      decide (p.user_id ∈ connected_user_ids) && p.is_active &&
      decide (p.privacy = PostPrivacy.pub ∨ p.privacy = PostPrivacy.connections)))).drop offset).take limit

def c3conns : List Conn :=
  [{ id := 1, requester_id := 1, addressee_id := 2, status := ConnStatus.accepted,
     created_at := 0, responded_at := some 1 }]

def c3posts : List Post :=
  [{ id := 1, user_id := 1, content := "a-public", privacy := PostPrivacy.pub,
     is_active := true, likes_count := 0, comments_count := 0, created_at := 10 },
   { id := 2, user_id := 1, content := "a-conn", privacy := PostPrivacy.connections,
     is_active := true, likes_count := 0, comments_count := 0, created_at := 20 },
   { id := 3, user_id := 1, content := "a-private", privacy := PostPrivacy.priv,
     is_active := true, likes_count := 0, comments_count := 0, created_at := 30 },
   { id := 4, user_id := 2, content := "b-public", privacy := PostPrivacy.pub,
     is_active := true, likes_count := 0, comments_count := 0, created_at := 40 },
   { id := 5, user_id := 2, content := "b-conn", privacy := PostPrivacy.connections,
     is_active := true, likes_count := 0, comments_count := 0, created_at := 50 },
   { id := 6, user_id := 3, content := "c-public", privacy := PostPrivacy.pub,
     is_active := true, likes_count := 0, comments_count := 0, created_at := 60 },
   { id := 7, user_id := 2, content := "b-private", privacy := PostPrivacy.priv,
     is_active := true, likes_count := 0, comments_count := 0, created_at := 70 }]

def c7conns : List Conn :=
  [{ id := 1, requester_id := 2, addressee_id := 1, status := ConnStatus.pending,
     created_at := 0, responded_at := none },
   { id := 2, requester_id := 2, addressee_id := 3, status := ConnStatus.accepted,
     created_at := 0, responded_at := some 1 }]

def c7post : Post :=
  { id := 1, user_id := 1, content := "hello", privacy := PostPrivacy.priv,
    is_active := true, likes_count := 0, comments_count := 0, created_at := 5 }

instance : IsTotal PostComment (fun a b => a.created_at ≤ b.created_at) :=
  ⟨fun a b => Nat.le_total a.created_at b.created_at⟩

instance : IsTrans PostComment (fun a b => a.created_at ≤ b.created_at) :=
  ⟨fun _ _ _ hab hbc => Nat.le_trans hab hbc⟩

/-- PostRepository.get_comment_replies: active replies of a comment, oldest
first, paginated. -/
def get_comment_replies (comments : List PostComment) (comment_id limit offset : Nat) :
    List PostComment :=
  ((sortCommentsAsc (comments.filter (fun c =>
      decide (c.parent_comment_id = some comment_id ∧ c.is_active)))).drop offset).take limit

/-- PostRepository.get_post_comments: active top-level comments of a post,
oldest first, paginated; each is paired with its replies loaded through
`get_comment_replies(comment.id, limit=10)`. -/
def get_post_comments (comments : List PostComment) (post_id limit offset : Nat) :
    List (PostComment × List PostComment) :=
  (((sortCommentsAsc (comments.filter (fun c =>
      decide (c.post_id = post_id ∧ c.parent_comment_id = none ∧ c.is_active)))).drop
      offset).take limit).map
    (fun c => (c, get_comment_replies comments c.id 10 0))

def c10top : PostComment :=
  { id := 1, post_id := 1, user_id := 1, content := "top", parent_comment_id := none,
    is_active := true, created_at := 0 }

def c10reply (i : Nat) : PostComment :=
  { id := i, post_id := 1, user_id := 2, content := "reply", parent_comment_id := some 1,
    is_active := true, created_at := i }

def c10comments : List PostComment :=
  c10top :: (List.range 11).map (fun i => c10reply (i + 2))

def c10pr : PostComment × List PostComment :=
  (c10top, (List.range 10).map (fun i => c10reply (i + 2)))

/-- Suggestion entry assembled by
ConnectionRepository.get_connection_suggestions (the dict appended per
candidate). -/
structure Suggestion where
  user : User
  mutual_connections_count : Nat
  common_university : Bool
  common_major : Bool
  common_interests : List String
  suggestion_score : Nat
deriving DecidableEq

/-- Python `str.lower()` on the profile fields: `String.toLower` maps
`Char.toLower` over the string; the same map is written here over the
underlying character list so that it evaluates by reduction. -/
def lower (s : String) : String := String.mk (s.data.map Char.toLower)

/-- Python truthiness-guarded case-insensitive equality of two optional string
columns (`if a and b and a.lower() == b.lower()`): `None` and the empty string
are falsy. -/
def common_string_field (a b : Option String) : Bool :=
  match a, b with
  | some x, some y => !(x == "") && !(y == "") && (lower x == lower y)
  | _, _ => false

/-- Common-interest list of the source: both interest arrays truthy, then the
requester's lowercased interests filtered by membership in the candidate's
lowercased interests (a list comprehension, so duplicates on the requester's
side survive). -/
def common_interests_of : Option (List String) → Option (List String) → List String
  | some ua, some pb =>
    if ua.isEmpty || pb.isEmpty then []
    else (ua.map lower).filter (fun i => decide (i ∈ pb.map lower))
  | _, _ => []

/-- Per-candidate scoring block of
ConnectionRepository.get_connection_suggestions: mutual count from
`get_mutual_connections(..., limit=100)`, +20 university, +15 major, +5 per
common interest. -/
def score_suggestion (conns : List Conn) (users : List User) (me pu : User) : Suggestion :=
  let mutual_count := (get_mutual_connections conns users me.id pu.id 100 0).length
  let cu := common_string_field me.university pu.university
  let cm := common_string_field me.major pu.major
  let ci := common_interests_of me.interests pu.interests
  { user := pu
    mutual_connections_count := mutual_count
    common_university := cu
    common_major := cm
    common_interests := ci
    suggestion_score :=
      mutual_count * 10 + (if cu then 20 else 0) + (if cm then 15 else 0) + ci.length * 5 }

/-- Stable descending sort on the score (Python's stable `list.sort` with
`reverse=True`). -/
def sortSuggestionsDesc (l : List Suggestion) : List Suggestion :=
  List.insertionSort (fun a b => b.suggestion_score ≤ a.suggestion_score) l

/-- ConnectionRepository.get_connection_suggestions: excluded ids are self plus
everyone in an accepted/pending/blocked relationship; the candidate query is
paged with `offset` and over-fetched to `limit * 2` rows before scoring;
positive-score candidates are sorted by score and the first `limit` are
returned. -/
def get_connection_suggestions (conns : List Conn) (users : List User)
    (user_id limit offset : Nat) : List Suggestion :=
  match users.find? (fun u => decide (u.id = user_id)) with
  | none => []
  | some user =>
    (sortSuggestionsDesc
      ((((users.filter (fun u =>
            decide (u.id ∉ user_id :: (conns.filter (fun c =>
              decide ((c.requester_id = user_id ∨ c.addressee_id = user_id) ∧
                (c.status = ConnStatus.accepted ∨ c.status = ConnStatus.pending ∨
                 c.status = ConnStatus.blocked)))).map (otherEnd user_id)) &&
            u.is_active)).drop offset).take (limit * 2)).filterMap
        (fun pu =>
          let s := score_suggestion conns users user pu
          if 0 < s.suggestion_score then some s else none))).take limit

/-- Eligible candidate pool in the spec's words: all active users except self
and except any user already in a pending/accepted/blocked relationship with
self, in either direction. -/
def eligible_pool (conns : List Conn) (users : List User) (uid : Nat) : List User :=
  users.filter (fun u => u.is_active && decide (u.id ≠ uid) &&
    decide (¬ ∃ c ∈ conns,
      ((c.requester_id = uid ∧ c.addressee_id = u.id) ∨
       (c.requester_id = u.id ∧ c.addressee_id = uid)) ∧
      (c.status = ConnStatus.pending ∨ c.status = ConnStatus.accepted ∨
       c.status = ConnStatus.blocked)))

def c4me : User :=
  { id := 1, is_active := true, university := some "mit", major := none, interests := some ["a"] }

def c4users : List User :=
  [c4me,
   { id := 2, is_active := true, university := none, major := none, interests := some ["a"] },
   { id := 3, is_active := true, university := none, major := none, interests := some ["a"] },
   { id := 4, is_active := true, university := some "mit", major := none, interests := none }]

/-- Size of the case-insensitive set intersection of two optional interest
collections, as the claim words it (interest lists read as sets). -/
def spec_common_interests_card (a b : Option (List String)) : Nat :=
  match a, b with
  | some x, some y => ((x.map lower).toFinset ∩ (y.map lower).toFinset).card
  | _, _ => 0

def c5users : List User :=
  [{ id := 1, is_active := true, university := none, major := none,
     interests := some ["AI", "ai"] },
   { id := 2, is_active := true, university := none, major := none,
     interests := some ["ai"] }]

def c5s : Suggestion :=
  { user := { id := 2, is_active := true, university := none, major := none,
              interests := some ["ai"] }
    mutual_connections_count := 0
    common_university := false
    common_major := false
    common_interests := ["ai", "ai"]
    suggestion_score := 10 }

/-- Mutable state of the post store: the three tables, id sequences, and an
abstract clock supplying `created_at` values. -/
structure PostDB where
  posts : List Post
  likes : List PostLike
  comments : List PostComment
  nextPostId : Nat
  nextCommentId : Nat
  clock : Nat

def init_post_db : PostDB :=
  { posts := [], likes := [], comments := [], nextPostId := 1, nextCommentId := 1, clock := 0 }

/-- PostRepository.create_post: inserts an active post with zero counters. -/
def create_post (db : PostDB) (user_id : Nat) (content : String) (privacy : PostPrivacy) :
    PostDB :=
  { db with
    posts := db.posts ++
      [{ id := db.nextPostId, user_id := user_id, content := content, privacy := privacy,
         is_active := true, likes_count := 0, comments_count := 0, created_at := db.clock }]
    nextPostId := db.nextPostId + 1 }

/-- PostRepository.like_post (toggle): requires an active post; deletes an
existing like row and decrements the counter (`max(0, n-1)`, which coincides
with truncated subtraction), or inserts a like row and increments. -/
def like_post (db : PostDB) (post_id user_id : Nat) : Bool × PostDB :=
  match db.posts.find? (fun p => decide (p.id = post_id ∧ p.is_active = true)) with
  | none => (false, db)
  | some _ =>
    match db.likes.find? (fun l => decide (l.post_id = post_id ∧ l.user_id = user_id)) with
    | some _ =>
      (false,
       { db with
         likes := remove_first
           (fun l => decide (l.post_id = post_id ∧ l.user_id = user_id)) db.likes
         posts := update_first (fun p => decide (p.id = post_id ∧ p.is_active = true))
           (fun p => { p with likes_count := p.likes_count - 1 }) db.posts })
    | none =>
      (true,
       { db with
         likes := db.likes ++ [{ post_id := post_id, user_id := user_id }]
         posts := update_first (fun p => decide (p.id = post_id ∧ p.is_active = true))
           (fun p => { p with likes_count := p.likes_count + 1 }) db.posts })

/-- PostRepository.create_comment: requires an active post and, for a reply, an
active parent comment on the same post; inserts the comment and increments the
post's comment counter. -/
def create_comment (db : PostDB) (post_id user_id : Nat) (content : String)
    (parent_comment_id : Option Nat) : Option PostComment × PostDB :=
  match db.posts.find? (fun p => decide (p.id = post_id ∧ p.is_active = true)) with
  | none => (none, db)
  | some _ =>
    let parent_ok : Bool :=
      match parent_comment_id with
      | none => true
      | some pcid =>
        (db.comments.find? (fun c =>
          decide (c.id = pcid ∧ c.post_id = post_id ∧ c.is_active = true))).isSome
    if parent_ok then
      let c : PostComment :=
        { id := db.nextCommentId, post_id := post_id, user_id := user_id, content := content,
          parent_comment_id := parent_comment_id, is_active := true, created_at := db.clock }
      (some c,
       { db with
         comments := db.comments ++ [c]
         posts := update_first (fun p => decide (p.id = post_id ∧ p.is_active = true))
           (fun p => { p with comments_count := p.comments_count + 1 }) db.posts
         nextCommentId := db.nextCommentId + 1 })
    else (none, db)

/-- PostRepository.delete_comment: only the author's own active comment; sets
it inactive and decrements the post's comment counter (`max(0, n-1)`). -/
def delete_comment (db : PostDB) (comment_id user_id : Nat) : Bool × PostDB :=
  match db.comments.find? (fun c =>
    decide (c.id = comment_id ∧ c.user_id = user_id ∧ c.is_active = true)) with
  | none => (false, db)
  | some c0 =>
    (true,
     { db with
       comments := update_first
         (fun c => decide (c.id = comment_id ∧ c.user_id = user_id ∧ c.is_active = true))
         (fun c => { c with is_active := false }) db.comments
       posts := update_first (fun p => decide (p.id = c0.post_id))
         (fun p => { p with comments_count := p.comments_count - 1 }) db.posts })

/-- PostRepository.delete_post: soft-deletes the author's own active post;
likes, comments and counters are untouched. -/
def delete_post (db : PostDB) (post_id user_id : Nat) : Bool × PostDB :=
  match db.posts.find? (fun p =>
    decide (p.id = post_id ∧ p.user_id = user_id ∧ p.is_active = true)) with
  | none => (false, db)
  | some _ =>
    (true,
     { db with
       posts := update_first
         (fun p => decide (p.id = post_id ∧ p.user_id = user_id ∧ p.is_active = true))
         (fun p => { p with is_active := false }) db.posts })

/-- The post-store operations of the claim. -/
inductive PostOp where
  | createPost (user_id : Nat) (content : String) (privacy : PostPrivacy)
  | toggleLike (post_id user_id : Nat)
  | addComment (post_id user_id : Nat) (content : String) (parent_comment_id : Option Nat)
  | deleteComment (comment_id user_id : Nat)
  | deletePost (post_id user_id : Nat)

def tick (db : PostDB) : PostDB := { db with clock := db.clock + 1 }

def apply_post_op (db : PostDB) : PostOp → PostDB
  | PostOp.createPost uid content privacy => tick (create_post db uid content privacy)
  | PostOp.toggleLike pid uid => tick (like_post db pid uid).2
  | PostOp.addComment pid uid content parent => tick (create_comment db pid uid content parent).2
  | PostOp.deleteComment cid uid => tick (delete_comment db cid uid).2
  | PostOp.deletePost pid uid => tick (delete_post db pid uid).2

def run_post_ops (db : PostDB) : List PostOp → PostDB
  | [] => db
  | op :: ops => run_post_ops (apply_post_op db op) ops

/-- Number of PostLike rows of a post (likes are hard-deleted, so all rows
count). -/
def likesFor (likes : List PostLike) (pid : Nat) : Nat :=
  (likes.filter (fun l => decide (l.post_id = pid))).length

/-- Number of active PostComment rows of a post. -/
def activeCommentsFor (cs : List PostComment) (pid : Nat) : Nat :=
  (cs.filter (fun c => decide (c.post_id = pid ∧ c.is_active = true))).length

/-- Counter accuracy: each post's denormalized counters equal the row counts. -/
def counters_ok (db : PostDB) : Prop :=
  ∀ p ∈ db.posts,
    p.likes_count = likesFor db.likes p.id ∧
    p.comments_count = activeCommentsFor db.comments p.id

/-- Auxiliary invariant carried through the induction: post ids are unique and
below the id sequence, and like/comment rows reference ids below it. -/
def post_db_inv (db : PostDB) : Prop :=
  (db.posts.map Post.id).Nodup ∧
  (∀ p ∈ db.posts, p.id < db.nextPostId) ∧
  (∀ l ∈ db.likes, l.post_id < db.nextPostId) ∧
  (∀ c ∈ db.comments, c.post_id < db.nextPostId) ∧
  counters_ok db

/-- HTTP-level failures raised by the connection endpoints, plus the storage
layer's integrity error for the ordered-pair unique constraint. -/
inductive HErr where
  | badRequest
  | forbidden
  | notFound
  | integrityError
deriving DecidableEq

/-- Mutable state of the connection store: the table, the id sequence, and an
abstract clock. -/
structure ConnDB where
  conns : List Conn
  nextId : Nat
  clock : Nat
deriving DecidableEq

/-- ConnectionRepository.create_connection plus the commit against the model's
constraints (`app/models/connection.py`): the UNIQUE constraint covers the
ordered pair (requester_id, addressee_id) only, and a CHECK forbids
self-connections. -/
def create_connection (db : ConnDB) (requester_id addressee_id : Nat) :
    Except HErr (ConnDB × Conn) :=
  if requester_id = addressee_id then Except.error HErr.integrityError
  else if (db.conns.any (fun c =>
      decide (c.requester_id = requester_id ∧ c.addressee_id = addressee_id))) then
    Except.error HErr.integrityError
  else
    let c : Conn :=
      { id := db.nextId, requester_id := requester_id, addressee_id := addressee_id,
        status := ConnStatus.pending, created_at := db.clock, responded_at := none }
    Except.ok
      ({ db with
         conns := db.conns ++ [c]
         nextId := db.nextId + 1
         clock := db.clock + 1 }, c)

/-- Endpoint send_connection_request (`app/api/v1/endpoints/connections.py`):
self-requests are rejected, the target must exist and be active, and an
existing record between the two users blocks the request when its status is
pending, accepted or blocked — a rejected record falls through and a new
record is created. -/
def send_connection_request (users : List User) (db : ConnDB)
    (current_user_id user_id : Nat) : Except HErr (ConnDB × Conn) :=
  if current_user_id = user_id then Except.error HErr.badRequest
  else
    match users.find? (fun u => decide (u.id = user_id)) with
    | none => Except.error HErr.notFound
    | some target =>
      if target.is_active = false then Except.error HErr.notFound
      else
        match get_connection_between_users db.conns current_user_id user_id with
        | some ec =>
          if ec.status = ConnStatus.pending then Except.error HErr.badRequest
          else if ec.status = ConnStatus.accepted then Except.error HErr.badRequest
          else if ec.status = ConnStatus.blocked then Except.error HErr.forbidden
          else create_connection db current_user_id user_id
        | none => create_connection db current_user_id user_id

/-- Endpoint reject_connection_request: repository
`update_connection_status(..., REJECTED, ...)`, with `None` mapped to 404. -/
def reject_connection_request (db : ConnDB) (connection_id current_user_id : Nat) :
    Except HErr ConnDB :=
  match update_connection_status db.conns connection_id ConnStatus.rejected
      current_user_id db.clock with
  | none => Except.error HErr.notFound
  | some (conns', _) => Except.ok { db with conns := conns', clock := db.clock + 1 }

def c2users : List User :=
  [{ id := 1, is_active := true, university := none, major := none, interests := none },
   { id := 2, is_active := true, university := none, major := none, interests := none }]

/-- The run witnessing the pair-uniqueness violation: user 1 requests user 2,
user 2 rejects, then user 2 requests user 1. -/
def c2_run : Except HErr ConnDB :=
  match send_connection_request c2users { conns := [], nextId := 1, clock := 0 } 1 2 with
  | Except.error e => Except.error e
  | Except.ok (db1, _) =>
    match reject_connection_request db1 1 2 with
    | Except.error e => Except.error e
    | Except.ok db2 =>
      match send_connection_request c2users db2 2 1 with
      | Except.error e => Except.error e
      | Except.ok (db3, _) => Except.ok db3

/-- C1: claim says `respond` must fail (404) whenever the record's status is
not pending.  Counterexample: a record already in status rejected, whose
addressee (user 2) calls accept — the source succeeds and even revives the
rejected record to accepted. -/
theorem C1_counterexample :
    (update_connection_status
        [{ id := 1, requester_id := 1, addressee_id := 2, status := ConnStatus.rejected,
           created_at := 0, responded_at := some 3 }]
        1 ConnStatus.accepted 2 7).isSome = true := by
  decide

/-- C1 (amended): for decision ∈ {accept, reject}, `update_connection_status`
fails iff the record is absent or the acting user is not the addressee; the
record's current status is not consulted.  When the acting user is the
addressee it succeeds, sets the status to the decision and sets responded-at
to the current time. -/
theorem C1_amended (conns : List Conn) (cid uid now : Nat) (d : ConnStatus)
    (hd : d = ConnStatus.accepted ∨ d = ConnStatus.rejected) :
    (get_connection_by_id conns cid = none →
      update_connection_status conns cid d uid now = none) ∧
    (∀ c, get_connection_by_id conns cid = some c → c.addressee_id ≠ uid →
      update_connection_status conns cid d uid now = none) ∧
    (∀ c, get_connection_by_id conns cid = some c → c.addressee_id = uid →
      update_connection_status conns cid d uid now =
        some (update_first (fun x => decide (x.id = cid))
                (fun _ => { c with status := d, responded_at := some now }) conns,
              { c with status := d, responded_at := some now })) := by
  refine ⟨fun h => ?_, fun c hc hne => ?_, fun c hc heq => ?_⟩
  · simp [update_connection_status, h]
  · rcases hd with h | h <;> subst h <;>
      simp [update_connection_status, hc, hne]
  · rcases hd with h | h <;> subst h <;>
      simp [update_connection_status, hc, heq]

/-- Witness for C1 (amended): a pending request accepted by its addressee
succeeds and records the response time. -/
theorem C1_amended_witness :
    update_connection_status
        [{ id := 1, requester_id := 1, addressee_id := 2, status := ConnStatus.pending,
           created_at := 0, responded_at := none }]
        1 ConnStatus.accepted 2 7 =
      some ([{ id := 1, requester_id := 1, addressee_id := 2, status := ConnStatus.accepted,
               created_at := 0, responded_at := some 7 }],
            { id := 1, requester_id := 1, addressee_id := 2, status := ConnStatus.accepted,
              created_at := 0, responded_at := some 7 }) := by
  have h := (C1_amended
    [{ id := 1, requester_id := 1, addressee_id := 2, status := ConnStatus.pending,
       created_at := 0, responded_at := none }]
    1 2 7 ConnStatus.accepted (Or.inl rfl)).2.2
    { id := 1, requester_id := 1, addressee_id := 2, status := ConnStatus.pending,
      created_at := 0, responded_at := none } (by decide) rfl
  simpa [update_first] using h

theorem mem_mutualRows {conns : List Conn} {a b x : Nat} :
    x ∈ mutualRows conns a b ↔
      (∃ c1 ∈ acceptedTouching conns a, otherEnd a c1 = x) ∧
      (∃ c2 ∈ acceptedTouching conns b, otherEnd b c2 = x) := by
  constructor
  · intro hx
    rcases List.mem_flatMap.mp hx with ⟨c1, h1, hmem⟩
    rcases List.mem_filterMap.mp hmem with ⟨c2, h2, hif⟩
    by_cases h : otherEnd b c2 = otherEnd a c1
    · rw [if_pos h] at hif
      have hx1 : otherEnd a c1 = x := Option.some_injective _ hif
      exact ⟨⟨c1, h1, hx1⟩, ⟨c2, h2, h.trans hx1⟩⟩
    · rw [if_neg h] at hif; cases hif
  · rintro ⟨⟨c1, h1, hx1⟩, ⟨c2, h2, hx2⟩⟩
    refine List.mem_flatMap.mpr ⟨c1, h1, List.mem_filterMap.mpr ⟨c2, h2, ?_⟩⟩
    rw [if_pos (by rw [hx1, hx2])]
    exact congrArg some hx1

/-- C8: with equal pagination parameters (limit 1, offset 0) the two directions
return different sets: users 1 and 2 share mutual connections 3 and 4, but the
un-ordered row stream is paginated before the user fetch, so (1,2) yields
user 3 while (2,1) yields user 4. -/
theorem C8_counterexample :
    3 ∈ (get_mutual_connections c8conns c8users 1 2 1 0).map User.id ∧
    3 ∉ (get_mutual_connections c8conns c8users 2 1 1 0).map User.id := by
  decide

/-- C8 (amended): the result sets coincide whenever the pagination window does
not truncate the row stream (offset 0 and limit at least the stream length);
then both directions return exactly the users lying in both accepted-neighbor
sets, in user-table order. -/
theorem C8_amended (conns : List Conn) (users : List User) (a b limA limB : Nat)
    (h1 : (mutualRows conns a b).length ≤ limA)
    (h2 : (mutualRows conns b a).length ≤ limB) :
    get_mutual_connections conns users a b limA 0 =
      get_mutual_connections conns users b a limB 0 := by
  have hmem : ∀ x, x ∈ mutualRows conns a b ↔ x ∈ mutualRows conns b a := by
    intro x; rw [mem_mutualRows, mem_mutualRows]; exact and_comm
  unfold get_mutual_connections
  rw [List.drop_zero, List.drop_zero, List.take_of_length_le h1, List.take_of_length_le h2]
  by_cases hN : mutualRows conns a b = []
  · have hN' : mutualRows conns b a = [] := by
      rw [List.eq_nil_iff_forall_not_mem]
      intro x hx
      rw [List.eq_nil_iff_forall_not_mem] at hN
      exact hN x ((hmem x).mpr hx)
    simp [hN, hN']
  · have hN' : mutualRows conns b a ≠ [] := by
      intro h
      apply hN
      rw [List.eq_nil_iff_forall_not_mem]
      intro x hx
      rw [List.eq_nil_iff_forall_not_mem] at h
      exact h x ((hmem x).mp hx)
    rw [if_neg (by simpa [List.isEmpty_iff] using hN), if_neg (by simpa [List.isEmpty_iff] using hN')]
    exact List.filter_congr (fun u _ => decide_eq_decide.mpr (hmem u.id))

/-- Witness for C8 (amended): with a window covering the whole row stream both
directions agree. -/
theorem C8_amended_witness :
    get_mutual_connections c8conns c8users 1 2 4 0 =
      get_mutual_connections c8conns c8users 2 1 4 0 :=
  C8_amended c8conns c8users 1 2 4 4 (by decide) (by decide)

/-- C3: in the spec's feed-composition scenario the claim puts "c-public" (from
the unconnected author C) and A's own private post in A's feed; the source
includes neither — the feed draws only from self and accepted connections, and
filters privacy to public/connections even for the requesting user's own
posts. -/
theorem C3_counterexample :
    "c-public" ∉ (get_feed c3conns c3posts 1 20 0).map Post.content ∧
    "a-private" ∉ (get_feed c3conns c3posts 1 20 0).map Post.content := by
  decide

/-- C3 (amended): in the scenario state, A's feed consists exactly of B's
public and connections posts and A's own public and connections posts, newest
first; it omits "c-public", A's private post, and B's private post. -/
theorem C3_amended :
    (get_feed c3conns c3posts 1 20 0).map Post.content =
      ["b-conn", "b-public", "a-conn", "a-public"] := by
  decide

/-- C7: for A's active private post, viewer B (only a pending request towards
A, no accepted connection) cannot see it, an anonymous viewer cannot see it,
and A can see their own post; in general an anonymous viewer sees exactly the
active public posts. -/
theorem C7_private_visibility :
    can_view c7conns (some 2) c7post = false ∧
    can_view c7conns none c7post = false ∧
    can_view c7conns (some 1) c7post = true ∧
    ∀ (conns : List Conn) (p : Post),
      can_view conns none p = (p.is_active && decide (p.privacy = PostPrivacy.pub)) := by
  refine ⟨by decide, by decide, by decide, fun conns p => ?_⟩
  have hconn : is_connected conns none p.user_id = false := by
    simp [is_connected]
  cases hact : p.is_active <;> simp [can_view, hact, hconn]

/-- C9: claim says the addressee of a pending request can never delete it by
either deletion operation.  Counterexample: user 2 is the addressee of the
pending request 1→2, and the pair-of-users operation (the `/remove/{user_id}`
endpoint path) deletes it for them. -/
theorem C9_counterexample :
    (remove_connection_between_users
      [{ id := 1, requester_id := 1, addressee_id := 2, status := ConnStatus.pending,
         created_at := 0, responded_at := none }] 2 1) = (true, []) := by
  decide

/-- C9 (amended): the connection-id deletion enforces the stated rule — a
pending record is deleted only by its requester, any other record by either
party — but the pair-of-users deletion succeeds exactly when any record joins
the two users, regardless of status, so the addressee of a pending request can
delete it through that operation. -/
theorem C9_amended (conns : List Conn) (cid uid : Nat) :
    (∀ c, get_connection_by_id conns cid = some c → c.status = ConnStatus.pending →
      ((delete_connection conns cid uid).1 = true ↔ c.requester_id = uid)) ∧
    (∀ c, get_connection_by_id conns cid = some c → c.status ≠ ConnStatus.pending →
      ((delete_connection conns cid uid).1 = true ↔
        (c.requester_id = uid ∨ c.addressee_id = uid))) ∧
    (∀ u1 u2 : Nat, ((remove_connection_between_users conns u1 u2).1 = true ↔
      (get_connection_between_users conns u1 u2).isSome = true)) := by
  refine ⟨fun c hc hp => ?_, fun c hc hp => ?_, fun u1 u2 => ?_⟩
  · by_cases h : c.requester_id = uid <;> simp [delete_connection, hc, hp, h]
  · by_cases h1 : c.requester_id = uid
    · simp [delete_connection, hc, hp, h1]
    · by_cases h2 : c.addressee_id = uid <;> simp [delete_connection, hc, hp, h1, h2]
  · cases hg : get_connection_between_users conns u1 u2 <;>
      simp [remove_connection_between_users, hg]

/-- Witness for C9 (amended): the requester of a pending request cancels it
successfully through the connection-id operation. -/
theorem C9_amended_witness :
    (delete_connection
      [{ id := 1, requester_id := 1, addressee_id := 2, status := ConnStatus.pending,
         created_at := 0, responded_at := none }] 1 1).1 = true :=
  ((C9_amended
      [{ id := 1, requester_id := 1, addressee_id := 2, status := ConnStatus.pending,
         created_at := 0, responded_at := none }] 1 1).1
    { id := 1, requester_id := 1, addressee_id := 2, status := ConnStatus.pending,
      created_at := 0, responded_at := none } (by decide) rfl).mpr rfl

/-- C10: every top-level comment returned by `get_post_comments` carries
exactly the first (creation-time-ascending) ten active replies — at most ten,
sorted — with any further replies silently dropped; the pair returned holds no
truncation indicator. -/
theorem C10_reply_truncation (comments : List PostComment) (post_id limit offset : Nat)
    (pr : PostComment × List PostComment)
    (h : pr ∈ get_post_comments comments post_id limit offset) :
    pr.2 = (sortCommentsAsc (comments.filter (fun c =>
        decide (c.parent_comment_id = some pr.1.id ∧ c.is_active)))).take 10 ∧
    pr.2.length ≤ 10 ∧
    List.Sorted (fun a b : PostComment => a.created_at ≤ b.created_at) pr.2 := by
  rcases List.mem_map.mp h with ⟨c, _hc, hpr⟩
  have h2 : pr.2 = get_comment_replies comments c.id 10 0 := by rw [← hpr]
  have h1 : pr.1 = c := by rw [← hpr]
  refine ⟨?_, ?_, ?_⟩
  · rw [h2, h1, get_comment_replies, List.drop_zero]
  · rw [h2, get_comment_replies, List.drop_zero]
    exact List.length_take_le 10 _
  · rw [h2, get_comment_replies, List.drop_zero]
    exact List.Pairwise.sublist (List.take_sublist 10 _)
      (List.sorted_insertionSort (fun a b : PostComment => a.created_at ≤ b.created_at) _)

/-- Witness for C10: a comment with eleven active replies comes back carrying
exactly the ten oldest. -/
theorem C10_reply_truncation_witness :
    c10pr.2 = (sortCommentsAsc (c10comments.filter (fun c =>
        decide (c.parent_comment_id = some c10pr.1.id ∧ c.is_active)))).take 10 ∧
    c10pr.2.length ≤ 10 ∧
    List.Sorted (fun a b : PostComment => a.created_at ≤ b.created_at) c10pr.2 :=
  C10_reply_truncation c10comments 1 20 0 c10pr (by decide)

theorem mem_connected_others {conns : List Conn} {uid x : Nat} (hx : x ≠ uid) :
    (x ∈ (conns.filter (fun c =>
      decide ((c.requester_id = uid ∨ c.addressee_id = uid) ∧
        (c.status = ConnStatus.accepted ∨ c.status = ConnStatus.pending ∨
         c.status = ConnStatus.blocked)))).map (otherEnd uid)) ↔
    ∃ c ∈ conns,
      ((c.requester_id = uid ∧ c.addressee_id = x) ∨
       (c.requester_id = x ∧ c.addressee_id = uid)) ∧
      (c.status = ConnStatus.pending ∨ c.status = ConnStatus.accepted ∨
       c.status = ConnStatus.blocked) := by
  rw [List.mem_map]
  constructor
  · rintro ⟨c, hc, hother⟩
    rw [List.mem_filter, decide_eq_true_eq] at hc
    obtain ⟨hcm, htouch, hst⟩ := hc
    refine ⟨c, hcm, ?_, by tauto⟩
    unfold otherEnd at hother
    by_cases hr : c.requester_id = uid
    · rw [if_pos hr] at hother; exact Or.inl ⟨hr, hother⟩
    · rw [if_neg hr] at hother
      rcases htouch with h | h
      · exact absurd h hr
      · exact Or.inr ⟨hother, h⟩
  · rintro ⟨c, hcm, hpair, hst⟩
    refine ⟨c, ?_, ?_⟩
    · rw [List.mem_filter, decide_eq_true_eq]
      refine ⟨hcm, ?_, by tauto⟩
      rcases hpair with ⟨h1, _⟩ | ⟨_, h2⟩
      · exact Or.inl h1
      · exact Or.inr h2
    · unfold otherEnd
      rcases hpair with ⟨h1, h2⟩ | ⟨h1, h2⟩
      · rw [if_pos h1]; exact h2
      · rw [if_neg (by rw [h1]; exact hx)]; exact h1

theorem filter_pool_eq (conns : List Conn) (users : List User) (uid : Nat) :
    users.filter (fun u =>
      decide (u.id ∉ uid :: (conns.filter (fun c =>
        decide ((c.requester_id = uid ∨ c.addressee_id = uid) ∧
          (c.status = ConnStatus.accepted ∨ c.status = ConnStatus.pending ∨
           c.status = ConnStatus.blocked)))).map (otherEnd uid)) &&
      u.is_active) = eligible_pool conns users uid := by
  unfold eligible_pool
  apply List.filter_congr
  intro u _
  by_cases ha : u.is_active
  · simp only [ha, Bool.and_true, Bool.true_and]
    rw [← Bool.decide_and, decide_eq_decide]
    rw [List.mem_cons, not_or]
    constructor
    · rintro ⟨hne, hnot⟩
      exact ⟨hne, fun hex => hnot ((mem_connected_others hne).mpr hex)⟩
    · rintro ⟨hne, hnot⟩
      exact ⟨hne, fun hmem => hnot ((mem_connected_others hne).mp hmem)⟩
  · simp [ha]

/-- C4: the suggestion page is not a slice of the score ordering of the whole
eligible pool.  With three eligible candidates and limit 1, the source scores
only the first `2 × limit = 2` pool members; candidate 4 scores 20 (shared
university) — the highest score of the pool — yet the page contains only
candidate 2 with score 5. -/
theorem C4_counterexample :
    (get_connection_suggestions [] c4users 1 1 0).map (fun s => s.user.id) = [2] ∧
    (get_connection_suggestions [] c4users 1 1 0).map (fun s => s.suggestion_score) = [5] ∧
    (eligible_pool [] c4users 1).map User.id = [2, 3, 4] ∧
    (score_suggestion [] c4users c4me
      { id := 4, is_active := true, university := some "mit", major := none,
        interests := none }).suggestion_score = 20 := by
  decide

/-- C4 (amended): `get_connection_suggestions` equals the limit-prefix of the
stable score-descending ordering of the positive-score candidates among only
the first `2 × limit` members (after skipping `offset`) of the eligible pool
taken in user-table order; eligible candidates beyond that window are never
scored, so a high-scoring candidate can be silently omitted from its page. -/
theorem C4_amended (conns : List Conn) (users : List User) (uid limit offset : Nat)
    (me : User) (h : users.find? (fun u => decide (u.id = uid)) = some me) :
    get_connection_suggestions conns users uid limit offset =
      (sortSuggestionsDesc
        ((((eligible_pool conns users uid).drop offset).take (limit * 2)).filterMap
          (fun pu =>
            let s := score_suggestion conns users me pu
            if 0 < s.suggestion_score then some s else none))).take limit := by
  unfold get_connection_suggestions
  rw [h, filter_pool_eq]

/-- Witness for C4 (amended), at the concrete pool of the counterexample
state. -/
theorem C4_amended_witness :
    get_connection_suggestions [] c4users 1 1 0 =
      (sortSuggestionsDesc
        ((((eligible_pool [] c4users 1).drop 0).take (1 * 2)).filterMap
          (fun pu =>
            let s := score_suggestion [] c4users c4me pu
            if 0 < s.suggestion_score then some s else none))).take 1 :=
  C4_amended [] c4users 1 1 0 c4me (by decide)

/-- C5: the interest bonus is `5 ×` the length of a filtered list of the
requester's interests, not of the set intersection.  With requester interests
["AI", "ai"] (case-insensitive duplicates) and candidate interests ["ai"], the
set intersection has size 1, so the claim's formula yields 5, but the returned
entry scores 10. -/
theorem C5_counterexample :
    (get_connection_suggestions [] c5users 1 20 0).map (fun s => s.suggestion_score) = [10] ∧
    (get_connection_suggestions [] c5users 1 20 0).map
      (fun s => s.mutual_connections_count) = [0] ∧
    (get_connection_suggestions [] c5users 1 20 0).map (fun s => s.common_university) = [false] ∧
    (get_connection_suggestions [] c5users 1 20 0).map (fun s => s.common_major) = [false] ∧
    spec_common_interests_card (some ["AI", "ai"]) (some ["ai"]) = 1 := by
  decide

theorem common_interests_length_eq (la lb : List String)
    (hnd : (la.map lower).Nodup) :
    (common_interests_of (some la) (some lb)).length =
      spec_common_interests_card (some la) (some lb) := by
  simp only [common_interests_of, spec_common_interests_card]
  by_cases he : (la.isEmpty || lb.isEmpty) = true
  · rw [if_pos he]
    rcases Bool.or_eq_true_iff.mp he with h | h
    · have hla : la = [] := List.isEmpty_iff.mp h
      subst hla; simp
    · have hlb : lb = [] := List.isEmpty_iff.mp h
      subst hlb; simp
  · rw [if_neg he]
    have h1 : ((la.map lower).filter (fun i => decide (i ∈ lb.map lower))).Nodup :=
      hnd.filter _
    rw [← List.toFinset_card_of_nodup h1, List.toFinset_filter]
    congr 1
    rw [← Finset.filter_mem_eq_inter]
    apply Finset.filter_congr
    intro x _
    simp

/-- C5 (amended): every returned suggestion entry is the scoring block applied
to the requester and the entry's own user, so its score is `10 × mutualCount`
plus 20 for a common university, 15 for a common major, and `5 ×` the number
of entries of the requester's interest list whose lowercase form occurs among
the candidate's lowercased interests; zero-score entries are never returned.
The interest term equals `5 ×` the size of the case-insensitive set
intersection whenever the requester's lowercased interest list has no
duplicates. -/
theorem C5_amended (conns : List Conn) (users : List User) (uid limit offset : Nat)
    (s : Suggestion) (h : s ∈ get_connection_suggestions conns users uid limit offset) :
    ∃ me, users.find? (fun u => decide (u.id = uid)) = some me ∧
      s = score_suggestion conns users me s.user ∧
      s.suggestion_score =
        s.mutual_connections_count * 10 + (if s.common_university then 20 else 0) +
          (if s.common_major then 15 else 0) + s.common_interests.length * 5 ∧
      0 < s.suggestion_score ∧
      (∀ la, me.interests = some la → (la.map lower).Nodup →
        s.common_interests.length = spec_common_interests_card me.interests s.user.interests) := by
  unfold get_connection_suggestions at h
  cases hf : users.find? (fun u => decide (u.id = uid)) with
  | none => rw [hf] at h; simp at h
  | some me =>
    rw [hf] at h
    have h1 := List.mem_of_mem_take h
    unfold sortSuggestionsDesc at h1
    have h2 := (List.perm_insertionSort _ _).mem_iff.mp h1
    rcases List.mem_filterMap.mp h2 with ⟨pu, _hpu, hif⟩
    dsimp only at hif
    by_cases hpos : 0 < (score_suggestion conns users me pu).suggestion_score
    · rw [if_pos hpos] at hif
      have hs : score_suggestion conns users me pu = s := Option.some_injective _ hif
      have hu : s.user = pu := by rw [← hs]; rfl
      refine ⟨me, rfl, ?_, ?_, ?_, ?_⟩
      · rw [hu, hs]
      · rw [← hs]; rfl
      · rw [← hs]; exact hpos
      · intro la hla hnd
        rw [← hs]
        show (common_interests_of me.interests pu.interests).length =
          spec_common_interests_card me.interests (score_suggestion conns users me pu).user.interests
        rw [hla]
        cases hb : pu.interests with
        | none =>
          show (common_interests_of (some la) none).length =
            spec_common_interests_card (some la) ((score_suggestion conns users me pu).user.interests)
          have : (score_suggestion conns users me pu).user.interests = pu.interests := rfl
          rw [this, hb]
          simp [common_interests_of, spec_common_interests_card]
        | some lb =>
          have : (score_suggestion conns users me pu).user.interests = pu.interests := rfl
          rw [this, hb]
          exact common_interests_length_eq la lb hnd
    · rw [if_neg hpos] at hif; cases hif

/-- Witness for C5 (amended), at the entry returned for the counterexample
state. -/
theorem C5_amended_witness :
    ∃ me, c5users.find? (fun u => decide (u.id = 1)) = some me ∧
      c5s = score_suggestion [] c5users me c5s.user ∧
      c5s.suggestion_score =
        c5s.mutual_connections_count * 10 + (if c5s.common_university then 20 else 0) +
          (if c5s.common_major then 15 else 0) + c5s.common_interests.length * 5 ∧
      0 < c5s.suggestion_score ∧
      (∀ la, me.interests = some la → (la.map lower).Nodup →
        c5s.common_interests.length = spec_common_interests_card me.interests c5s.user.interests) :=
  C5_amended [] c5users 1 20 0 c5s (by decide)

theorem mem_remove_first {q : α → Bool} {l : List α} {y : α}
    (h : y ∈ remove_first q l) : y ∈ l := by
  induction l with
  | nil => simp [remove_first] at h
  | cons x xs ih =>
    simp only [remove_first] at h
    by_cases hq : q x
    · rw [if_pos hq] at h; exact List.mem_cons_of_mem _ h
    · rw [if_neg hq] at h
      rcases List.mem_cons.mp h with rfl | hmem
      · exact List.mem_cons_self _ _
      · exact List.mem_cons_of_mem _ (ih hmem)

theorem mem_update_first {q : α → Bool} {f : α → α} {l : List α} {y : α}
    (h : y ∈ update_first q f l) : y ∈ l ∨ ∃ x, x ∈ l ∧ y = f x := by
  induction l with
  | nil => simp [update_first] at h
  | cons x xs ih =>
    simp only [update_first] at h
    by_cases hq : q x
    · rw [if_pos hq] at h
      rcases List.mem_cons.mp h with rfl | hmem
      · exact Or.inr ⟨x, List.mem_cons_self _ _, rfl⟩
      · exact Or.inl (List.mem_cons_of_mem _ hmem)
    · rw [if_neg hq] at h
      rcases List.mem_cons.mp h with rfl | hmem
      · exact Or.inl (List.mem_cons_self _ _)
      · rcases ih hmem with h1 | ⟨z, hz, hy⟩
        · exact Or.inl (List.mem_cons_of_mem _ h1)
        · exact Or.inr ⟨z, List.mem_cons_of_mem _ hz, hy⟩

theorem map_update_first {q : α → Bool} {f : α → α} {g : α → β} (l : List α)
    (hg : ∀ x, g (f x) = g x) : (update_first q f l).map g = l.map g := by
  induction l with
  | nil => rfl
  | cons x xs ih =>
    simp only [update_first]
    by_cases hq : q x
    · rw [if_pos hq]; simp [hg]
    · rw [if_neg hq]; simp [ih]

theorem likesFor_append (likes : List PostLike) (l : PostLike) (pid : Nat) :
    likesFor (likes ++ [l]) pid =
      likesFor likes pid + (if l.post_id = pid then 1 else 0) := by
  simp only [likesFor, List.filter_append]
  by_cases h : l.post_id = pid <;> simp [h]

theorem activeCommentsFor_append (cs : List PostComment) (c : PostComment) (pid : Nat) :
    activeCommentsFor (cs ++ [c]) pid =
      activeCommentsFor cs pid + (if c.post_id = pid ∧ c.is_active = true then 1 else 0) := by
  simp only [activeCommentsFor, List.filter_append]
  by_cases h : (c.post_id = pid ∧ c.is_active = true) <;> simp [h]

theorem likesFor_zero (likes : List PostLike) (pid : Nat)
    (h : ∀ l ∈ likes, l.post_id ≠ pid) : likesFor likes pid = 0 := by
  simp only [likesFor, List.length_eq_zero, List.filter_eq_nil_iff]
  intro l hl
  simpa using h l hl

theorem activeCommentsFor_zero (cs : List PostComment) (pid : Nat)
    (h : ∀ c ∈ cs, c.post_id ≠ pid) : activeCommentsFor cs pid = 0 := by
  simp only [activeCommentsFor, List.length_eq_zero, List.filter_eq_nil_iff]
  intro c hc
  simp only [decide_eq_true_eq, not_and]
  intro hp
  exact absurd hp (h c hc)

theorem likesFor_remove_first (likes : List PostLike) (P U pid : Nat)
    (h : (likes.find? (fun l => decide (l.post_id = P ∧ l.user_id = U))).isSome = true) :
    likesFor likes pid =
      likesFor (remove_first (fun l => decide (l.post_id = P ∧ l.user_id = U)) likes) pid +
        (if pid = P then 1 else 0) := by
  induction likes with
  | nil => simp at h
  | cons l ls ih =>
    by_cases hl : (l.post_id = P ∧ l.user_id = U)
    · have hd : decide (l.post_id = P ∧ l.user_id = U) = true := by simpa using hl
      simp only [remove_first, hd, if_true]
      simp only [likesFor, List.filter_cons]
      rcases hl with ⟨hP, _⟩
      by_cases hpid : pid = P
      · subst hpid; simp [hP]
      · have hne : ¬(l.post_id = pid) := by rw [hP]; exact fun hh => hpid hh.symm
        simp [hne, hpid]
    · have hd : decide (l.post_id = P ∧ l.user_id = U) = false := by simpa using hl
      have h' : (ls.find? (fun l => decide (l.post_id = P ∧ l.user_id = U))).isSome = true := by
        rwa [List.find?_cons_of_neg ls (by simp [hd])] at h
      simp only [remove_first, hd, Bool.false_eq_true, if_false]
      simp only [likesFor, List.filter_cons]
      have hrec := ih h'
      simp only [likesFor] at hrec
      by_cases hc : l.post_id = pid
      · have hd2 : decide (l.post_id = pid) = true := by simpa using hc
        simp only [hd2, if_true, List.length_cons]
        omega
      · have hd2 : decide (l.post_id = pid) = false := by simpa using hc
        simp only [hd2, Bool.false_eq_true, if_false]
        omega

theorem activeCommentsFor_deactivate (cs : List PostComment) (cid uid pid : Nat)
    (c0 : PostComment)
    (h : cs.find? (fun c =>
      decide (c.id = cid ∧ c.user_id = uid ∧ c.is_active = true)) = some c0) :
    activeCommentsFor cs pid =
      activeCommentsFor
        (update_first (fun c => decide (c.id = cid ∧ c.user_id = uid ∧ c.is_active = true))
          (fun c => { c with is_active := false }) cs) pid +
        (if pid = c0.post_id then 1 else 0) := by
  induction cs with
  | nil => simp at h
  | cons c cs ih =>
    by_cases hc : (c.id = cid ∧ c.user_id = uid ∧ c.is_active = true)
    · have hd : decide (c.id = cid ∧ c.user_id = uid ∧ c.is_active = true) = true := by
        simpa using hc
      have hc0 : c = c0 := by
        have := List.find?_cons_of_pos (p := fun c =>
          decide (c.id = cid ∧ c.user_id = uid ∧ c.is_active = true)) cs hd
        rw [this] at h
        exact Option.some_injective _ h
      subst hc0
      simp only [update_first, hd, if_true]
      simp only [activeCommentsFor, List.filter_cons]
      obtain ⟨_, _, hact⟩ := hc
      by_cases hpid : pid = c.post_id
      · subst hpid
        simp [hact]
      · have hne : ¬(c.post_id = pid) := fun hh => hpid hh.symm
        simp [hact, hne, hpid]
    · have hd : decide (c.id = cid ∧ c.user_id = uid ∧ c.is_active = true) = false := by
        simpa using hc
      have h' : cs.find? (fun c =>
          decide (c.id = cid ∧ c.user_id = uid ∧ c.is_active = true)) = some c0 := by
        rwa [List.find?_cons_of_neg cs (by simp [hd])] at h
      simp only [update_first, hd, Bool.false_eq_true, if_false]
      simp only [activeCommentsFor, List.filter_cons]
      have hrec := ih h'
      simp only [activeCommentsFor] at hrec
      by_cases hcc : (c.post_id = pid ∧ c.is_active = true)
      · have : decide (c.post_id = pid ∧ c.is_active = true) = true := by simpa using hcc
        simp only [this, if_true, List.length_cons]
        omega
      · have : decide (c.post_id = pid ∧ c.is_active = true) = false := by simpa using hcc
        simp only [this, Bool.false_eq_true, if_false]
        omega

theorem counters_ok_update_first (P : Nat) (q : Post → Bool) (f : Post → Post)
    (oldL oldC newL newC : Nat → Nat)
    (hid : ∀ p, q p = true → p.id = P)
    (hfid : ∀ p, (f p).id = p.id)
    (hL : ∀ pid, pid ≠ P → newL pid = oldL pid)
    (hC : ∀ pid, pid ≠ P → newC pid = oldC pid)
    (hfL : ∀ p, q p = true → p.likes_count = oldL P → (f p).likes_count = newL P)
    (hfC : ∀ p, q p = true → p.comments_count = oldC P → (f p).comments_count = newC P) :
    ∀ posts : List Post, (posts.map Post.id).Nodup →
      (∀ p ∈ posts, p.id = P → q p = true) →
      (∀ p ∈ posts, p.likes_count = oldL p.id ∧ p.comments_count = oldC p.id) →
      ∀ p' ∈ update_first q f posts,
        p'.likes_count = newL p'.id ∧ p'.comments_count = newC p'.id := by
  intro posts
  induction posts with
  | nil => intro _ _ _ p' hp'; simp [update_first] at hp'
  | cons p ps ih =>
    intro hnd hall hinv p' hp'
    simp only [update_first] at hp'
    by_cases hq : q p
    · rw [if_pos hq] at hp'
      rcases List.mem_cons.mp hp' with rfl | hmem
      · have hP : p.id = P := hid p hq
        have h1 := hinv p (List.mem_cons_self p ps)
        constructor
        · rw [hfid p, hP]
          exact hfL p hq (by rw [← hP]; exact h1.1)
        · rw [hfid p, hP]
          exact hfC p hq (by rw [← hP]; exact h1.2)
      · have hPid : p.id ∉ ps.map Post.id := by
          have hh : (p.id :: ps.map Post.id).Nodup := by simpa using hnd
          exact (List.nodup_cons.mp hh).1
        have hne : p'.id ≠ P := by
          intro hp2
          exact hPid (List.mem_map.mpr ⟨p', hmem, by rw [hp2, hid p hq]⟩)
        have h2 := hinv p' (List.mem_cons_of_mem _ hmem)
        exact ⟨by rw [hL _ hne]; exact h2.1, by rw [hC _ hne]; exact h2.2⟩
    · rw [if_neg hq] at hp'
      rcases List.mem_cons.mp hp' with rfl | hmem
      · have hne : p'.id ≠ P := fun hp2 => by
          simp [hall p' (List.mem_cons_self _ _) hp2] at hq
        have h2 := hinv p' (List.mem_cons_self _ _)
        exact ⟨by rw [hL _ hne]; exact h2.1, by rw [hC _ hne]; exact h2.2⟩
      · have hh : (p.id :: ps.map Post.id).Nodup := by simpa using hnd
        exact ih (List.nodup_cons.mp hh).2
          (fun x hx => hall x (List.mem_cons_of_mem _ hx))
          (fun x hx => hinv x (List.mem_cons_of_mem _ hx)) p' hmem

theorem inv_create_post (db : PostDB) (uid : Nat) (content : String) (privacy : PostPrivacy)
    (h : post_db_inv db) : post_db_inv (create_post db uid content privacy) := by
  obtain ⟨hnd, hp, hl, hc, hcnt⟩ := h
  refine ⟨?_, ?_, ?_, ?_, ?_⟩
  · simp only [create_post, List.map_append, List.map_cons, List.map_nil]
    rw [List.nodup_append]
    refine ⟨hnd, List.nodup_singleton _, ?_⟩
    intro x hx hx2
    simp only [List.mem_singleton] at hx2
    subst hx2
    rcases List.mem_map.mp hx with ⟨p, hpm, hpid⟩
    exact absurd hpid (Nat.ne_of_lt (hp p hpm))
  · simp only [create_post]
    intro p hpm
    rcases List.mem_append.mp hpm with h1 | h1
    · exact Nat.lt_trans (hp p h1) (Nat.lt_succ_self _)
    · simp only [List.mem_singleton] at h1
      subst h1
      exact Nat.lt_succ_self _
  · simp only [create_post]
    intro l hlm
    exact Nat.lt_trans (hl l hlm) (Nat.lt_succ_self _)
  · simp only [create_post]
    intro c hcm
    exact Nat.lt_trans (hc c hcm) (Nat.lt_succ_self _)
  · intro p hpm
    simp only [create_post] at hpm
    rcases List.mem_append.mp hpm with h1 | h1
    · exact hcnt p h1
    · simp only [List.mem_singleton] at h1
      subst h1
      constructor
      · exact (likesFor_zero _ _ (fun l hlm => Nat.ne_of_lt (hl l hlm))).symm
      · exact (activeCommentsFor_zero _ _ (fun c hcm => Nat.ne_of_lt (hc c hcm))).symm

theorem inv_like_post (db : PostDB) (post_id user_id : Nat)
    (h : post_db_inv db) : post_db_inv (like_post db post_id user_id).2 := by
  obtain ⟨hnd, hp, hl, hc, hcnt⟩ := h
  cases hfp : db.posts.find? (fun p => decide (p.id = post_id ∧ p.is_active = true)) with
  | none => simp only [like_post, hfp]; exact ⟨hnd, hp, hl, hc, hcnt⟩
  | some p0 =>
    have hp0mem : p0 ∈ db.posts := List.mem_of_find?_eq_some hfp
    have hp0q := List.find?_some hfp
    have hp0id : p0.id = post_id := (of_decide_eq_true hp0q).1
    have hall : ∀ p ∈ db.posts, p.id = post_id →
        (fun p => decide (p.id = post_id ∧ p.is_active = true)) p = true := by
      intro p hpm hpid
      have hpp : p = p0 := List.inj_on_of_nodup_map hnd hpm hp0mem (by rw [hpid, hp0id])
      rw [hpp]
      exact hp0q
    cases hfl : db.likes.find? (fun l => decide (l.post_id = post_id ∧ l.user_id = user_id)) with
    | some l0 =>
      simp only [like_post, hfp, hfl]
      have hrem : ∀ pid, likesFor db.likes pid =
          likesFor (remove_first
            (fun l => decide (l.post_id = post_id ∧ l.user_id = user_id)) db.likes) pid +
            (if pid = post_id then 1 else 0) :=
        fun pid => likesFor_remove_first db.likes post_id user_id pid (by rw [hfl]; rfl)
      have hmap : (update_first (fun p => decide (p.id = post_id ∧ p.is_active = true))
          (fun p => { p with likes_count := p.likes_count - 1 }) db.posts).map Post.id =
          db.posts.map Post.id := map_update_first db.posts (fun x => rfl)
      refine ⟨?_, ?_, ?_, ?_, ?_⟩
      · dsimp only
        rw [hmap]
        exact hnd
      · intro p hpm
        rcases mem_update_first hpm with h1 | ⟨x, hx, rfl⟩
        · exact hp p h1
        · exact hp x hx
      · intro l hlm
        exact hl l (mem_remove_first hlm)
      · exact hc
      · intro p' hp'
        exact counters_ok_update_first post_id
          (fun p => decide (p.id = post_id ∧ p.is_active = true))
          (fun p => { p with likes_count := p.likes_count - 1 })
          (likesFor db.likes) (activeCommentsFor db.comments)
          (likesFor (remove_first
            (fun l => decide (l.post_id = post_id ∧ l.user_id = user_id)) db.likes))
          (activeCommentsFor db.comments)
          (fun p hq => (of_decide_eq_true hq).1)
          (fun p => rfl)
          (fun pid hne => by have hh := hrem pid; rw [if_neg hne] at hh; omega)
          (fun pid _ => rfl)
          (fun p hq hcount => by
            have hh := hrem post_id
            rw [if_pos rfl] at hh
            show p.likes_count - 1 = _
            omega)
          (fun p hq hcount => hcount)
          db.posts hnd hall hcnt p' hp'
    | none =>
      simp only [like_post, hfp, hfl]
      have happ : ∀ pid,
          likesFor (db.likes ++ [{ post_id := post_id, user_id := user_id }]) pid =
            likesFor db.likes pid + (if post_id = pid then 1 else 0) :=
        fun pid => likesFor_append db.likes { post_id := post_id, user_id := user_id } pid
      have hmap : (update_first (fun p => decide (p.id = post_id ∧ p.is_active = true))
          (fun p => { p with likes_count := p.likes_count + 1 }) db.posts).map Post.id =
          db.posts.map Post.id := map_update_first db.posts (fun x => rfl)
      refine ⟨?_, ?_, ?_, ?_, ?_⟩
      · dsimp only
        rw [hmap]
        exact hnd
      · intro p hpm
        rcases mem_update_first hpm with h1 | ⟨x, hx, rfl⟩
        · exact hp p h1
        · exact hp x hx
      · intro l hlm
        rcases List.mem_append.mp hlm with h1 | h1
        · exact hl l h1
        · simp only [List.mem_singleton] at h1
          subst h1
          show post_id < db.nextPostId
          rw [← hp0id]
          exact hp p0 hp0mem
      · exact hc
      · intro p' hp'
        exact counters_ok_update_first post_id
          (fun p => decide (p.id = post_id ∧ p.is_active = true))
          (fun p => { p with likes_count := p.likes_count + 1 })
          (likesFor db.likes) (activeCommentsFor db.comments)
          (likesFor (db.likes ++ [{ post_id := post_id, user_id := user_id }]))
          (activeCommentsFor db.comments)
          (fun p hq => (of_decide_eq_true hq).1)
          (fun p => rfl)
          (fun pid hne => by
            have hh := happ pid
            rw [if_neg (fun hh2 => hne hh2.symm)] at hh
            omega)
          (fun pid _ => rfl)
          (fun p hq hcount => by
            have hh := happ post_id
            rw [if_pos rfl] at hh
            show p.likes_count + 1 = _
            omega)
          (fun p hq hcount => hcount)
          db.posts hnd hall hcnt p' hp'

theorem inv_create_comment (db : PostDB) (post_id user_id : Nat) (content : String)
    (parent : Option Nat) (h : post_db_inv db) :
    post_db_inv (create_comment db post_id user_id content parent).2 := by
  obtain ⟨hnd, hp, hl, hc, hcnt⟩ := h
  cases hfp : db.posts.find? (fun p => decide (p.id = post_id ∧ p.is_active = true)) with
  | none => simp only [create_comment, hfp]; exact ⟨hnd, hp, hl, hc, hcnt⟩
  | some p0 =>
    have hp0mem : p0 ∈ db.posts := List.mem_of_find?_eq_some hfp
    have hp0q := List.find?_some hfp
    have hp0id : p0.id = post_id := (of_decide_eq_true hp0q).1
    have hall : ∀ p ∈ db.posts, p.id = post_id →
        (fun p => decide (p.id = post_id ∧ p.is_active = true)) p = true := by
      intro p hpm hpid
      have hpp : p = p0 := List.inj_on_of_nodup_map hnd hpm hp0mem (by rw [hpid, hp0id])
      rw [hpp]
      exact hp0q
    simp only [create_comment, hfp]
    split
    · have happ : ∀ pid,
          activeCommentsFor (db.comments ++
            [{ id := db.nextCommentId, post_id := post_id, user_id := user_id,
               content := content, parent_comment_id := parent, is_active := true,
               created_at := db.clock }]) pid =
            activeCommentsFor db.comments pid + (if post_id = pid then 1 else 0) := by
        intro pid
        have hh := activeCommentsFor_append db.comments
          { id := db.nextCommentId, post_id := post_id, user_id := user_id,
            content := content, parent_comment_id := parent, is_active := true,
            created_at := db.clock } pid
        by_cases hpp : post_id = pid
        · rw [hh, if_pos ⟨hpp, rfl⟩, if_pos hpp]
        · rw [hh, if_neg (fun hx => hpp hx.1), if_neg hpp]
      have hmap : (update_first (fun p => decide (p.id = post_id ∧ p.is_active = true))
          (fun p => { p with comments_count := p.comments_count + 1 }) db.posts).map Post.id =
          db.posts.map Post.id := map_update_first db.posts (fun x => rfl)
      refine ⟨?_, ?_, ?_, ?_, ?_⟩
      · dsimp only
        rw [hmap]
        exact hnd
      · intro p hpm
        rcases mem_update_first hpm with h1 | ⟨x, hx, rfl⟩
        · exact hp p h1
        · exact hp x hx
      · exact hl
      · intro c hcm
        rcases List.mem_append.mp hcm with h1 | h1
        · exact hc c h1
        · simp only [List.mem_singleton] at h1
          subst h1
          show post_id < db.nextPostId
          rw [← hp0id]
          exact hp p0 hp0mem
      · intro p' hp'
        exact counters_ok_update_first post_id
          (fun p => decide (p.id = post_id ∧ p.is_active = true))
          (fun p => { p with comments_count := p.comments_count + 1 })
          (likesFor db.likes) (activeCommentsFor db.comments)
          (likesFor db.likes)
          (activeCommentsFor (db.comments ++
            [{ id := db.nextCommentId, post_id := post_id, user_id := user_id,
               content := content, parent_comment_id := parent, is_active := true,
               created_at := db.clock }]))
          (fun p hq => (of_decide_eq_true hq).1)
          (fun p => rfl)
          (fun pid _ => rfl)
          (fun pid hne => by
            have hh := happ pid
            rw [if_neg (fun hh2 => hne hh2.symm)] at hh
            omega)
          (fun p hq hcount => hcount)
          (fun p hq hcount => by
            have hh := happ post_id
            rw [if_pos rfl] at hh
            show p.comments_count + 1 = _
            omega)
          db.posts hnd hall hcnt p' hp'
    · exact ⟨hnd, hp, hl, hc, hcnt⟩

theorem inv_delete_comment (db : PostDB) (comment_id user_id : Nat) (h : post_db_inv db) :
    post_db_inv (delete_comment db comment_id user_id).2 := by
  obtain ⟨hnd, hp, hl, hc, hcnt⟩ := h
  cases hfc : db.comments.find? (fun c =>
      decide (c.id = comment_id ∧ c.user_id = user_id ∧ c.is_active = true)) with
  | none => simp only [delete_comment, hfc]; exact ⟨hnd, hp, hl, hc, hcnt⟩
  | some c0 =>
    simp only [delete_comment, hfc]
    have hdeact : ∀ pid, activeCommentsFor db.comments pid =
        activeCommentsFor
          (update_first (fun c => decide (c.id = comment_id ∧ c.user_id = user_id ∧
            c.is_active = true)) (fun c => { c with is_active := false }) db.comments) pid +
          (if pid = c0.post_id then 1 else 0) :=
      fun pid => activeCommentsFor_deactivate db.comments comment_id user_id pid c0 hfc
    have hmap : (update_first (fun p => decide (p.id = c0.post_id))
        (fun p => { p with comments_count := p.comments_count - 1 }) db.posts).map Post.id =
        db.posts.map Post.id := map_update_first db.posts (fun x => rfl)
    refine ⟨?_, ?_, ?_, ?_, ?_⟩
    · dsimp only
      rw [hmap]
      exact hnd
    · intro p hpm
      rcases mem_update_first hpm with h1 | ⟨x, hx, rfl⟩
      · exact hp p h1
      · exact hp x hx
    · exact hl
    · intro c hcm
      rcases mem_update_first hcm with h1 | ⟨x, hx, rfl⟩
      · exact hc c h1
      · exact hc x hx
    · intro p' hp'
      exact counters_ok_update_first c0.post_id
        (fun p => decide (p.id = c0.post_id))
        (fun p => { p with comments_count := p.comments_count - 1 })
        (likesFor db.likes) (activeCommentsFor db.comments)
        (likesFor db.likes)
        (activeCommentsFor
          (update_first (fun c => decide (c.id = comment_id ∧ c.user_id = user_id ∧
            c.is_active = true)) (fun c => { c with is_active := false }) db.comments))
        (fun p hq => of_decide_eq_true hq)
        (fun p => rfl)
        (fun pid _ => rfl)
        (fun pid hne => by
          have hh := hdeact pid
          rw [if_neg hne] at hh
          omega)
        (fun p hq hcount => hcount)
        (fun p hq hcount => by
          have hh := hdeact c0.post_id
          rw [if_pos rfl] at hh
          show p.comments_count - 1 = _
          omega)
        db.posts hnd (fun p hpm hpid => by simpa using hpid) hcnt p' hp'

theorem inv_delete_post (db : PostDB) (post_id user_id : Nat) (h : post_db_inv db) :
    post_db_inv (delete_post db post_id user_id).2 := by
  obtain ⟨hnd, hp, hl, hc, hcnt⟩ := h
  cases hfp : db.posts.find? (fun p =>
      decide (p.id = post_id ∧ p.user_id = user_id ∧ p.is_active = true)) with
  | none => simp only [delete_post, hfp]; exact ⟨hnd, hp, hl, hc, hcnt⟩
  | some p0 =>
    simp only [delete_post, hfp]
    have hmap : (update_first (fun p =>
        decide (p.id = post_id ∧ p.user_id = user_id ∧ p.is_active = true))
        (fun p => { p with is_active := false }) db.posts).map Post.id =
        db.posts.map Post.id := map_update_first db.posts (fun x => rfl)
    refine ⟨?_, ?_, ?_, ?_, ?_⟩
    · dsimp only
      rw [hmap]
      exact hnd
    · intro p hpm
      rcases mem_update_first hpm with h1 | ⟨x, hx, rfl⟩
      · exact hp p h1
      · exact hp x hx
    · exact hl
    · exact hc
    · intro p' hp'
      rcases mem_update_first hp' with h1 | ⟨x, hx, rfl⟩
      · exact hcnt p' h1
      · exact hcnt x hx

theorem tick_inv (db : PostDB) (h : post_db_inv db) : post_db_inv (tick db) := h

theorem apply_post_op_inv (db : PostDB) (op : PostOp) (h : post_db_inv db) :
    post_db_inv (apply_post_op db op) := by
  cases op with
  | createPost uid content privacy => exact tick_inv _ (inv_create_post db uid content privacy h)
  | toggleLike pid uid => exact tick_inv _ (inv_like_post db pid uid h)
  | addComment pid uid content parent =>
    exact tick_inv _ (inv_create_comment db pid uid content parent h)
  | deleteComment cid uid => exact tick_inv _ (inv_delete_comment db cid uid h)
  | deletePost pid uid => exact tick_inv _ (inv_delete_post db pid uid h)

theorem run_post_ops_inv (ops : List PostOp) :
    ∀ db : PostDB, post_db_inv db → post_db_inv (run_post_ops db ops) := by
  induction ops with
  | nil => intro db h; exact h
  | cons op ops ih => intro db h; exact ih _ (apply_post_op_inv db op h)

theorem init_post_db_inv : post_db_inv init_post_db := by
  refine ⟨?_, ?_, ?_, ?_, ?_⟩ <;> simp [init_post_db, counters_ok]

/-- C6: in every state reachable from the empty store by any sequence of the
post-store operations (create post, toggle like, add comment, delete comment,
soft-delete post), every post's `likes_count` equals the number of PostLike
rows for it and its `comments_count` equals the number of active PostComment
rows for it. -/
theorem C6_counter_accuracy (ops : List PostOp) :
    counters_ok (run_post_ops init_post_db ops) :=
  (run_post_ops_inv ops init_post_db init_post_db_inv).2.2.2.2

/-- C2: the request endpoint blocks a new request on an existing pending,
accepted or blocked record but lets a rejected record fall through, and the
storage constraint is on the ordered pair only, so the sequence
request(1→2), reject by 2, request(2→1) succeeds end to end and leaves two
Connection records for the unordered pair {1, 2}. -/
theorem C2_pair_uniqueness_violation :
    c2_run.toOption.map (fun db => (db.conns.filter (fun c =>
      decide ((c.requester_id = 1 ∧ c.addressee_id = 2) ∨
              (c.requester_id = 2 ∧ c.addressee_id = 1)))).length) = some 2 := by
  decide
